import Mathlib

/-!
Verification of the DAMASK regular-grid geometry core:
`src/python/damask/geom.py` (class `Geom`: `from_file`, `to_file`, `update`,
the `set_*` mutators) and `src/processing/pre/spectral_geomCrop.py`
(the crop transform).

Modelling conventions (shallow embedding):
* A text file is modelled after whitespace tokenization as a list of lines,
  each line a list of tokens.  Numeric literals are carried semantically:
  a token whose text parses as a Python `int` is `Tok.int`, one that parses
  as a `float` but not as an `int` is `Tok.float` (value as an exact `ℚ`),
  and any other token is `Tok.str`.  Python `int(tok)` succeeds exactly on
  `Tok.int`; `float(tok)` succeeds on `Tok.int` and `Tok.float`.
  Machine floats are modelled by exact rationals; the decimal rendering of
  numbers (and the precision of the `%g` output format) is out of scope,
  which matches the spec's "byte-identical text is not required".
* NumPy arrays are modelled by their shape together with their column-major
  (order `F`) flat buffer; `reshape(order='F')` and the column-major flatten
  are the index translation proved in the C2 theorems below.
* Fallible Python code (exceptions) is modelled with `Except String`.
-/

deriving instance DecidableEq for Except

namespace DamaskGeom

/-- A whitespace token of an input line, carried post-lexing: numeric
literals are represented by their value. -/
inductive Tok where
  | str   : String → Tok
  | int   : Int → Tok
  | float : ℚ → Tok
deriving DecidableEq, Repr

/-- A line of a file, as the list of its whitespace-separated tokens. -/
abbrev Line := List Tok

/-- A whole text file, as its list of lines. -/
abbrev GFile := List Line

/-- Python `int(tok)`: succeeds exactly on integer literals (`int("3.5")`
and `int("abc")` both raise `ValueError`). -/
def parseIntTok : Tok → Option Int
  | .int n => some n
  | _ => none

/-- Python `float(tok)`: succeeds on integer and float literals. -/
def parseFloatTok : Tok → Option ℚ
  | .int n => some (n : ℚ)
  | .float q => some q
  | .str _ => none

/-- ASCII lower-casing of one character (geom files are ASCII, so this
matches Python `str.lower()` on them). -/
def lowerChar (c : Char) : Char :=
  if 'A' ≤ c ∧ c ≤ 'Z' then Char.ofNat (c.toNat + 32) else c

/-- Python `str.lower()` on a token's text. -/
def lowerString (s : String) : String := ⟨s.data.map lowerChar⟩

/-- Python `s.startswith(pre)`. -/
def strStartsWith (s pre : String) : Bool :=
  s.data.take pre.data.length == pre.data

/-- Python `str.lower()` applied to a token; lowering numeric text is the
identity. -/
def lowerTok : Tok → Tok
  | .str s => .str (lowerString s)
  | t => t

/-- Microstructure array: shape (`numpy .shape`, one entry per axis),
column-major flat buffer, and the dtype tag (`True` for an integer array). -/
structure Micro where
  shape : List Int
  vals  : List ℚ
  isInt : Bool
deriving DecidableEq, Repr

/-- The geometry aggregate, mirroring the attributes of class `Geom`
(`geom.py`).  `grid` is not stored: as in the source it is derived from
`microstructure.shape` (`get_grid`). -/
structure Geom where
  microstructure : Micro
  size : List ℚ
  origin : List ℚ
  homogenization : Int
  comments : List Line
deriving DecidableEq, Repr

/-- `Geom.get_grid` (geom.py:123-124): the microstructure's shape. -/
def get_grid (g : Geom) : List Int := g.microstructure.shape

/-- `Geom.set_size` (geom.py:92-97).  `None` argument: no-op.  Otherwise
requires exactly 3 entries, all positive. -/
def set_size (g : Geom) : Option (List ℚ) → Except String Geom
  | none => .ok g
  | some s =>
    if s.length ≠ 3 ∨ s.any (· ≤ 0) then .error "Invalid size"
    else .ok { g with size := s }

/-- `Geom.set_origin` (geom.py:99-104).  `None` argument: no-op.  Otherwise
requires exactly 3 entries. -/
def set_origin (g : Geom) : Option (List ℚ) → Except String Geom
  | none => .ok g
  | some o =>
    if o.length ≠ 3 then .error "Invalid origin"
    else .ok { g with origin := o }

/-- `Geom.set_microstructure` (geom.py:83-90).  `None` argument: no-op.
Otherwise the array must be exactly 3-dimensional.  The dtype check
(`int`/`float` only) always passes here because `Micro` carries numeric
data by construction. -/
def set_microstructure (g : Geom) : Option Micro → Except String Geom
  | none => .ok g
  | some m =>
    if m.shape.length ≠ 3 then .error "Invalid microstructure shape"
    else .ok { g with microstructure := m }

/-- `Geom.set_homogenization` (geom.py:106-111).  `None` argument: no-op.
Otherwise must be an integer of value at least 1 (the argument is an
integer by type here; Python additionally rejects non-`int` values). -/
def set_homogenization (g : Geom) : Option Int → Except String Geom
  | none => .ok g
  | some h =>
    if h < 1 then .error "Invalid homogenization"
    else .ok { g with homogenization := h }

/-- The size produced by `update`'s rescale mode (geom.py:44):
`self.get_grid()/grid_old*self.size`, element-wise with float division. -/
def rescaledSize (grid_new grid_old : List Int) (size_old : List ℚ) : List ℚ :=
  (grid_new.zip (grid_old.zip size_old)).map
    (fun p => (p.1 : ℚ) / (p.2.1 : ℚ) * p.2.2)

/-- `Geom.update` (geom.py:32-45), as a state transformer that also returns
the error message when an exception is raised.  The returned `Geom` is the
object's state at the point the exception escapes, mirroring in-place
mutation: the explicit-size/rescale conflict is checked before any mutation,
and each `set_*` call mutates only on success. -/
def updateRun (g : Geom) (micro : Option Micro) (size : Option (List ℚ))
    (origin : Option (List ℚ)) (rescale : Bool) : Geom × Option String :=
  if size.isSome ∧ rescale then
    (g, some "Either set size explicitly or rescale automatically")
  else
    match set_microstructure g micro with
    | .error e => (g, some e)
    | .ok g1 =>
      let newSize := if rescale
        then some (rescaledSize (get_grid g1) (get_grid g) g.size)
        else size
      match set_size g1 newSize with
      | .error e => (g1, some e)
      | .ok g2 =>
        match set_origin g2 origin with
        | .error e => (g2, some e)
        | .ok g3 => (g3, none)

/-! ## Decoder (`Geom.from_file`, geom.py:140-190) -/

/-- Every other element, starting with the head: `stride2 l` is Python
`l[0::2]`. -/
def stride2 {α : Type} : List α → List α
  | [] => []
  | [a] => [a]
  | a :: _ :: rest => a :: stride2 rest

/-- Lookup in `dict(zip(ks, vs))`: the later of duplicate keys wins. -/
def dlookup (pairs : List (Tok × Tok)) (k : Tok) : Option Tok :=
  ((pairs.filter (fun p => p.1 = k)).getLast?).map (fun p => p.2)

/-- The value tokens of a header line for the given axis keys:
`dict(zip(items[1::2], items[2::2]))[k] for k in keys` (geom.py:157). -/
def axisVals (items : List Tok) (keys : List String) : Option (List Tok) :=
  let pairs := (stride2 (items.drop 1)).zip (stride2 (items.drop 2))
  keys.mapM (fun k => dlookup pairs (.str k))

/-- First token of the lower-cased line, or the empty-string token
(geom.py:155: `items[0] if len(items) > 0 else ''`). -/
def lineKey (l : Line) : Tok :=
  match l.map lowerTok with
  | t :: _ => t
  | [] => .str ""

/-- Accumulator of the header loop: the keyword fields found so far and the
comment lines collected so far. -/
structure HeadInfo where
  grid : Option (List Int)
  size : Option (List ℚ)
  origin : Option (List ℚ)
  homog : Option Int
  comments : List Line
deriving DecidableEq, Repr

/-- One iteration of the header loop (geom.py:153-165): classify the line by
its lower-cased first token and parse it, or collect it as a comment. -/
def parseHeaderLine (hd : HeadInfo) (l : Line) : Except String HeadInfo :=
  let items := l.map lowerTok
  if lineKey l = .str "grid" then
    match (axisVals items ["a", "b", "c"]).bind (fun ts => ts.mapM parseIntTok) with
    | some g => .ok { hd with grid := some g }
    | none => .error "invalid grid header line"
  else if lineKey l = .str "size" then
    match (axisVals items ["x", "y", "z"]).bind (fun ts => ts.mapM parseFloatTok) with
    | some s => .ok { hd with size := some s }
    | none => .error "invalid size header line"
  else if lineKey l = .str "origin" then
    match (axisVals items ["x", "y", "z"]).bind (fun ts => ts.mapM parseFloatTok) with
    | some o => .ok { hd with origin := some o }
    | none => .error "invalid origin header line"
  else if lineKey l = .str "homogenization" then
    match (items.get? 1).bind parseIntTok with
    | some h => .ok { hd with homog := some h }
    | none => .error "invalid homogenization header line"
  else .ok { hd with comments := hd.comments ++ [l] }

/-- The header loop over the declared header lines. -/
def parseHeaderLoop (hd : HeadInfo) : List Line → Except String HeadInfo
  | [] => .ok hd
  | l :: rest =>
    match parseHeaderLine hd l with
    | .ok hd2 => parseHeaderLoop hd2 rest
    | .error e => .error e

/-- The initial, empty header accumulator. -/
def emptyHead : HeadInfo := ⟨none, none, none, none, []⟩

/-- Python `keyword.startswith('head')` — note: case-sensitive
(geom.py:149). -/
def keywordOk (t : Tok) : Bool :=
  match t with
  | .str s => strStartsWith s "head"
  | _ => false

/-- The marker-line phase of `from_file` (geom.py:143-150): split the first
line, take its first two tokens as header length and keyword, fail unless
the keyword starts with `head` and the length is at least 3.  Returns the
header-line count and the remaining lines. -/
def parseMarker : GFile → Except String (Nat × List Line)
  | [] => .error "header length information missing or invalid"
  | l0 :: content =>
    match l0 with
    | t0 :: t1 :: _ =>
      match parseIntTok t0 with
      | none => .error "header length information missing or invalid"
      | some hl =>
        if ¬ keywordOk t1 ∨ hl < 3 then
          .error "header length information missing or invalid"
        else .ok (hl.toNat, content)
    | _ => .error "header length information missing or invalid"

/-- The inclusive integer sequence produced by
`np.linspace(s, e, abs(e-s)+1, dtype=float)` (geom.py:175-176): unit steps
from `s` to `e`, descending when `e < s`. -/
def linTo (s e : Int) : List ℚ :=
  if s ≤ e then (List.range ((e - s).toNat + 1)).map (fun k : Nat => ((s + (k : Int) : Int) : ℚ))
  else (List.range ((s - e).toNat + 1)).map (fun k : Nat => ((s - (k : Int) : Int) : ℚ))

/-- Expansion of one body line (geom.py:169-178): a line of exactly three
tokens is checked for the compact forms `n of v` and `s to e`; any other
line, and a three-token line matching neither form, is parsed as plain
floats. -/
def plainFloats (l : Line) : Except String (List ℚ) :=
  match l.mapM parseFloatTok with
  | some vs => .ok vs
  | none => .error "invalid body line"

def expandLine (l : Line) : Except String (List ℚ) :=
  match l with
  | [t0, .str s1, t2] =>
    if lowerString s1 = "of" then
      match parseIntTok t0, parseFloatTok t2 with
      | some n, some v =>
        if n < 0 then .error "negative dimensions are not allowed"
        else .ok (List.replicate n.toNat v)
      | _, _ => .error "invalid body line"
    else if lowerString s1 = "to" then
      match parseIntTok t0, parseIntTok t2 with
      | some s, some e => .ok (linTo s e)
      | _, _ => .error "invalid body line"
    else .error "invalid body line"
  | l => plainFloats l

/-- The body loop (geom.py:167-181): expand every body line and concatenate
the values in file order.  The incremental writes into the pre-allocated
flat array, including the broadcast failure on an over-full body, are
modelled together with the final count check in `mkGeomChecked`: a file is
accepted exactly when the total equals the cell count. -/
def parseBody (lines : List Line) : Except String (List ℚ) :=
  match lines.mapM expandLine with
  | .ok chunks => .ok chunks.flatten
  | .error e => .error e

/-- Whether a rational is integral (`np.mod(v, 1) == 0.0`, geom.py:187). -/
def isIntegral (q : ℚ) : Bool := q.den = 1

/-- The final phase of `from_file` (geom.py:183-190): the cell-count check,
the integer cast when no fractional value is present, the `reshape(grid)`
(which fails on a negative shape entry), and the `Geom` construction whose
`__init__` runs the validating setters in order (size, origin,
microstructure, homogenization). -/
def mkGeomChecked (gr : List Int) (hd : HeadInfo) (vals : List ℚ) :
    Except String Geom :=
  if (vals.length : Int) ≠ gr.prod then
    .error "Invalid file: wrong number of entries"
  else
    let isInt := vals.all isIntegral
    if gr.any (· < 0) then .error "cannot reshape to a negative dimension"
    else
      match hd.size, hd.origin, hd.homog with
      | some size, some origin, some homog =>
        if size.length ≠ 3 ∨ size.any (· ≤ 0) then .error "Invalid size"
        else if origin.length ≠ 3 then .error "Invalid origin"
        else if gr.length ≠ 3 then .error "Invalid microstructure shape"
        else if homog < 1 then .error "Invalid homogenization"
        else .ok ⟨⟨gr, vals, isInt⟩, size, origin, homog, hd.comments⟩
      | _, _, _ => .error "size, origin or homogenization not found"

/-- `Geom.from_file` (geom.py:140-190): marker line, header loop, the
`np.empty(grid.prod())` allocation (requires the grid to be present with a
non-negative product), body loop, and the checked construction. -/
def decode (f : GFile) : Except String Geom :=
  match parseMarker f with
  | .error e => .error e
  | .ok (hl, content) =>
    match parseHeaderLoop emptyHead (content.take hl) with
    | .error e => .error e
    | .ok hd =>
      match hd.grid with
      | none => .error "grid info not found"
      | some gr =>
        if gr.prod < 0 then .error "negative dimensions are not allowed"
        else
          match parseBody (content.drop hl) with
          | .error e => .error e
          | .ok vals => mkGeomChecked gr hd vals

/-! ## Encoder (`Geom.get_header` and `Geom.to_file`, geom.py:132-200) -/

/-- The token a numeric value prints as: an integral value renders without a
fractional part (`%Ni` on an integer array, and `%g` drops `.0`), any other
value as a float literal. -/
def numTok (q : ℚ) : Tok :=
  if q.den = 1 then .int q.num else .float q

/-- `Geom.get_header` (geom.py:132-138): the marker line
`'{} header'.format(len(comments)+4)`, the comments verbatim, then the
canonical grid, size, origin and homogenization lines.  Grid values print
as integers, size and origin values with `str(float)` (always a float
literal). -/
def get_header (g : Geom) : List Line :=
  [.int ((g.comments.length : Int) + 4), .str "header"] ::
  g.comments ++
  [ [.str "grid", .str "a", .int (g.microstructure.shape.getD 0 0),
     .str "b", .int (g.microstructure.shape.getD 1 0),
     .str "c", .int (g.microstructure.shape.getD 2 0)],
    [.str "size", .str "x", .float (g.size.getD 0 0),
     .str "y", .float (g.size.getD 1 0),
     .str "z", .float (g.size.getD 2 0)],
    [.str "origin", .str "x", .float (g.origin.getD 0 0),
     .str "y", .float (g.origin.getD 1 0),
     .str "z", .float (g.origin.getD 2 0)],
    [.str "homogenization", .int g.homogenization] ]

/-- floor of the base-10 logarithm of the absolute value of a nonzero
rational: the unique `e` with `10^e <= |q| < 10^(e+1)`, computed from the
digit counts of numerator and denominator with a one-step correction. -/
def exp10 (q : ℚ) : Int :=
  let e0 : Int := (Nat.log 10 q.num.natAbs : Int) - (Nat.log 10 q.den : Int)
  if |q| < (10 : ℚ) ^ e0 then e0 - 1 else e0

/-- The `'%g'` output format used for float-typed bodies (geom.py:197):
the value rounded to 6 significant decimal digits (what the written text
carries and the re-decode recovers).  This models the precision loss of
`%g`; the binary float64 representation of values stays out of scope, and
exact decimal ties follow `round` (half up). -/
def g6 (q : ℚ) : ℚ :=
  if q = 0 then 0
  else (round (q / (10 : ℚ) ^ (exp10 q - 5)) : ℚ) * (10 : ℚ) ^ (exp10 q - 5)

/-- One body value as written by `np.savetxt` (geom.py:196-197): an
integer-typed array prints with `'%Ni'`, exactly; a float-typed array
prints with `'%g'`, i.e. the value rounded to 6 significant digits (an
integral rendering lexes as an integer literal, anything else as a float
literal). -/
def fmtTok (isInt : Bool) (q : ℚ) : Tok :=
  if isInt then .int q.num else numTok (g6 q)

/-- The body lines written by `np.savetxt` (geom.py:198-200): the
microstructure reshaped to `(grid[0], prod(grid[1:]))` in order `F` and
transposed, i.e. `rows` lines of `a` values, line `q` holding flat elements
`a*q` through `a*q + a - 1`, each rendered per the array's dtype. -/
def bodyLines (isInt : Bool) (a rows : Nat) (vals : List ℚ) : List Line :=
  (List.range rows).map
    (fun q => (List.range a).map (fun p => fmtTok isInt (vals.getD (p + a * q) 0)))

/-- `Geom.to_file` (geom.py:192-200).  For an integer-typed microstructure
the column width is `floor(log10(max))+1` (geom.py:196), which raises a
`ValueError` on an empty array and a math domain error when the maximum is
not positive; otherwise the `%g` format is used and nothing can fail. -/
def to_file (g : Geom) : Except String GFile :=
  match g.microstructure.shape with
  | [ga, gb, gc] =>
    let out := get_header g ++
      bodyLines g.microstructure.isInt ga.toNat (gb.toNat * gc.toNat)
        g.microstructure.vals
    if g.microstructure.isInt then
      match g.microstructure.vals.maximum with
      | none => .error "max of an empty array"
      | some m => if m < 1 then .error "math domain error" else .ok out
    else .ok out
  | _ => .error "unexpected microstructure shape"

/-! ## Column-major reshape and flatten (geom.py:186, geom.py:199, and the
fill loop of spectral_geomCrop.py:121-126) -/

/-- The 3-D view of a flat buffer under `reshape(grid, order='F')`
(geom.py:186): entry `(x, y, z)` is flat element `x + a*(y + b*z)`. -/
def reshapeF (a b : Nat) (v : List ℚ) (x y z : Nat) : ℚ :=
  v.getD (x + a * (y + b * z)) 0

/-- The column-major flatten used when writing (geom.py:199): flat element
`i` is the field value at `(i % a, (i / a) % b, i / (a*b))`, the index
translation spelled out in the fill loop of spectral_geomCrop.py:125. -/
def flattenF (a b c : Nat) (m : Nat → Nat → Nat → ℚ) : List ℚ :=
  (List.range (a * b * c)).map (fun i => m (i % a) ((i / a) % b) (i / (a * b)))

/-! ## Crop transform (spectral_geomCrop.py) -/

/-- The rewritten dimension entries (spectral_geomCrop.py:104-106): per
axis, `dimension[i] / resolution[i] * new_resolution[i]`. -/
def cropDimension (dim : List ℚ) (res newres : List Int) : List ℚ :=
  (dim.zip (res.zip newres)).map
    (fun p => p.1 / (p.2.1 : ℚ) * (p.2.2 : ℚ))

/-- One output row (spectral_geomCrop.py:140):
`microstructure[off0 : off0+res0, y, z]`.  NumPy basic slicing clips both
slice bounds to the array length, so the row holds the source values at
the in-range part of the window only. -/
def rowSlice (g0 : Nat) (m : Nat → Nat → Nat → Int) (start stop y z : Nat) :
    List Int :=
  (List.range (min stop g0 - min start g0)).map
    (fun k => m (min start g0 + k) y z)

/-- The inner output loop (spectral_geomCrop.py:139-140): `y` runs over
`xrange(off1, off1+res1)` (here: from `y` for `n` steps).  Integer indexing
`microstructure[..., y, z]` raises an `IndexError` when `y` or `z` is out
of range; the axis-0 slice never does. -/
def cropRowsY (g0 g1 g2 : Nat) (m : Nat → Nat → Nat → Int)
    (off0 res0 z : Nat) : Nat → Nat → Except String (List (List Int))
  | _, 0 => .ok []
  | y, n + 1 =>
    if g1 ≤ y ∨ g2 ≤ z then .error "IndexError"
    else
      match cropRowsY g0 g1 g2 m off0 res0 z (y + 1) n with
      | .ok rest => .ok (rowSlice g0 m off0 (off0 + res0) y z :: rest)
      | .error e => .error e

/-- The outer output loop (spectral_geomCrop.py:138): `z` runs over
`xrange(off2, off2+res2)` (here: from `z` for `n` steps). -/
def cropRowsZ (g0 g1 g2 : Nat) (m : Nat → Nat → Nat → Int)
    (off0 res0 off1 res1 : Nat) : Nat → Nat → Except String (List (List Int))
  | _, 0 => .ok []
  | z, n + 1 =>
    match cropRowsY g0 g1 g2 m off0 res0 z off1 res1 with
    | .ok rows =>
      match cropRowsZ g0 g1 g2 m off0 res0 off1 res1 (z + 1) n with
      | .ok rest => .ok (rows ++ rest)
      | .error e => .error e
    | .error e => .error e

/-- The whole body-extraction of the crop (spectral_geomCrop.py:138-140),
for non-negative offsets: the list of output rows, one row per `(y, z)` of
the requested window, in `z`-major order. -/
def cropBody (grid : Nat × Nat × Nat) (m : Nat → Nat → Nat → Int)
    (off res : Nat × Nat × Nat) : Except String (List (List Int)) :=
  cropRowsZ grid.1 grid.2.1 grid.2.2 m off.1 res.1 off.2.1 res.2.1 off.2.2 res.2.2

/-! ## Example files and classification helpers -/

/-- Whether the header loop treats a line as a comment: its lower-cased
first token is none of the four field keywords. -/
def commentLine (l : Line) : Prop :=
  lineKey l ≠ .str "grid" ∧ lineKey l ≠ .str "size" ∧
  lineKey l ≠ .str "origin" ∧ lineKey l ≠ .str "homogenization"

instance (l : Line) : Decidable (commentLine l) := by
  unfold commentLine
  infer_instance

/-- A file declaring `grid a 2 b 2 c 1` (4 cells) whose body supplies only
3 scalars. -/
def mismatchFile : GFile :=
  [ [.int 4, .str "header"],
    [.str "grid", .str "a", .int 2, .str "b", .int 2, .str "c", .int 1],
    [.str "size", .str "x", .float 1, .str "y", .float 1, .str "z", .float 1],
    [.str "origin", .str "x", .float 0, .str "y", .float 0, .str "z", .float 0],
    [.str "homogenization", .int 1],
    [.int 1, .int 2, .int 3] ]

/-- A file that is well-formed except that its marker keyword is the
upper-case `HEAD`. -/
def upperHeadFile : GFile :=
  [ [.int 4, .str "HEAD"],
    [.str "grid", .str "a", .int 1, .str "b", .int 1, .str "c", .int 1],
    [.str "size", .str "x", .float 1, .str "y", .float 1, .str "z", .float 1],
    [.str "origin", .str "x", .float 0, .str "y", .float 0, .str "z", .float 0],
    [.str "homogenization", .int 1],
    [.int 1] ]

/-- The same file with marker keyword `Header`. -/
def capHeaderFile : GFile :=
  [.int 4, .str "Header"] :: upperHeadFile.tail

/-- A well-formed single-cell file whose only microstructure value is 0:
it decodes fine, but the integer writer's `log10(max)` fails on it. -/
def zeroValFile : GFile :=
  [ [.int 4, .str "header"],
    [.str "grid", .str "a", .int 1, .str "b", .int 1, .str "c", .int 1],
    [.str "size", .str "x", .float 1, .str "y", .float 1, .str "z", .float 1],
    [.str "origin", .str "x", .float 0, .str "y", .float 0, .str "z", .float 0],
    [.str "homogenization", .int 1],
    [.int 0] ]

/-- A concrete well-formed 2 by 2 by 1 file. -/
def roundTripFile : GFile :=
  [ [.int 4, .str "header"],
    [.str "grid", .str "a", .int 2, .str "b", .int 2, .str "c", .int 1],
    [.str "size", .str "x", .int 1, .str "y", .int 1, .str "z", .int 1],
    [.str "origin", .str "x", .int 0, .str "y", .int 0, .str "z", .int 0],
    [.str "homogenization", .int 1],
    [.int 1, .int 2],
    [.int 3, .int 4] ]

/-- The geometry `roundTripFile` decodes to. -/
def roundTripGeom : Geom :=
  ⟨⟨[2, 2, 1], [1, 2, 3, 4], true⟩, [1, 1, 1], [0, 0, 0], 1, []⟩

/-- The file `roundTripGeom` encodes to. -/
def roundTripOut : GFile :=
  [ [.int 4, .str "header"],
    [.str "grid", .str "a", .int 2, .str "b", .int 2, .str "c", .int 1],
    [.str "size", .str "x", .float 1, .str "y", .float 1, .str "z", .float 1],
    [.str "origin", .str "x", .float 0, .str "y", .float 0, .str "z", .float 0],
    [.str "homogenization", .int 1],
    [.int 1, .int 2],
    [.int 3, .int 4] ]

/-- The exact value of the decimal literal `0.6666666666666666` is awkward
to carry around; the counterexample instead stores 2/3 directly (given in
lowest terms so that numerator and denominator are definitionally
available). -/
def twoThirds : ℚ := ⟨2, 3, by norm_num, by norm_num⟩

/-- The 6-significant-digit rendering of 2/3: the value `0.666667` that
the `'%g'` format writes. -/
def g6TwoThirds : ℚ := ⟨666667, 1000000, by norm_num, by norm_num⟩

/-- A well-formed single-cell file whose microstructure value is 2/3: it
has a float-typed microstructure, which the writer renders with `'%g'`. -/
def floatValFile : GFile :=
  [ [.int 4, .str "header"],
    [.str "grid", .str "a", .int 1, .str "b", .int 1, .str "c", .int 1],
    [.str "size", .str "x", .float 1, .str "y", .float 1, .str "z", .float 1],
    [.str "origin", .str "x", .float 0, .str "y", .float 0, .str "z", .float 0],
    [.str "homogenization", .int 1],
    [.float twoThirds] ]

/-- The file the writer produces for `floatValFile`'s geometry: the body
now carries `0.666667`, not 2/3. -/
def floatValOut : GFile :=
  [ [.int 4, .str "header"],
    [.str "grid", .str "a", .int 1, .str "b", .int 1, .str "c", .int 1],
    [.str "size", .str "x", .float 1, .str "y", .float 1, .str "z", .float 1],
    [.str "origin", .str "x", .float 0, .str "y", .float 0, .str "z", .float 0],
    [.str "homogenization", .int 1],
    [.float g6TwoThirds] ]

/-! ## Claim theorems: body compact forms (C3, C4) -/

/-- C3: Body decode expands the compact forms to these exact value
sequences: `3 of 7` yields `[7,7,7]`; `2 to 5` yields `[2,3,4,5]`; `5 to 2`
yields `[5,4,3,2]`, whose length is `abs(end-start)+1`. -/
theorem C3_compact_forms :
    expandLine [.int 3, .str "of", .int 7] = .ok [(7 : ℚ), 7, 7] ∧
    expandLine [.int 2, .str "to", .int 5] = .ok [(2 : ℚ), 3, 4, 5] ∧
    expandLine [.int 5, .str "to", .int 2] = .ok [(5 : ℚ), 4, 3, 2] ∧
    [(2 : ℚ), 3, 4, 5].length = ((5 : Int) - 2).natAbs + 1 ∧
    [(5 : ℚ), 4, 3, 2].length = ((2 : Int) - 5).natAbs + 1 := by
  refine ⟨?_, ?_, ?_, ?_, ?_⟩ <;> decide

/-- C4 counterexample: decoding the body line `5 to 2` yields the
descending sequence `[5,4,3,2]`, not the ascending `[2,3,4,5]` the claim
prescribes. -/
theorem C4_counterexample :
    expandLine [.int 5, .str "to", .int 2] = .ok [(5 : ℚ), 4, 3, 2] ∧
    expandLine [.int 5, .str "to", .int 2] ≠ .ok [(2 : ℚ), 3, 4, 5] := by
  constructor <;> decide

/-- C4 (amended): the body line `start to end` expands to the inclusive
integer sequence from `start` to `end` with count `abs(end-start)+1`,
stepping by `+1` when `start ≤ end` and by `-1` otherwise — the direction
follows the operands, it is not always ascending. -/
theorem C4_to_expansion (s e : Int) :
    expandLine [.int s, .str "to", .int e] = .ok (linTo s e) ∧
    (linTo s e).length = (e - s).natAbs + 1 ∧
    (linTo s e).head? = some (s : ℚ) ∧
    (linTo s e).getLast? = some (e : ℚ) ∧
    List.Chain' (fun p q => q = p + (if s ≤ e then 1 else -1)) (linTo s e) := by
  refine ⟨?_, ?_, ?_, ?_, ?_⟩
  · simp only [expandLine, parseIntTok]
    rw [if_neg (by decide), if_pos (by decide)]
  · rcases le_or_lt s e with h | h
    · rw [linTo, if_pos h]
      simp only [List.length_map, List.length_range]
      omega
    · rw [linTo, if_neg (not_le.mpr h)]
      simp only [List.length_map, List.length_range]
      omega
  · rcases le_or_lt s e with h | h
    · rw [linTo, if_pos h, List.range_succ_eq_map]
      simp
    · rw [linTo, if_neg (not_le.mpr h), List.range_succ_eq_map]
      simp
  · rcases le_or_lt s e with h | h
    · rw [linTo, if_pos h, List.range_succ, List.map_append, List.map_singleton,
        List.getLast?_concat]
      rw [Int.toNat_of_nonneg (by omega : (0 : Int) ≤ e - s)]
      norm_num
    · rw [linTo, if_neg (not_le.mpr h), List.range_succ, List.map_append,
        List.map_singleton, List.getLast?_concat]
      rw [Int.toNat_of_nonneg (by omega : (0 : Int) ≤ s - e)]
      norm_num
  · rcases le_or_lt s e with h | h
    · simp only [linTo, if_pos h]
      rw [List.chain'_map, List.chain'_range_succ]
      intro k _
      push_cast
      ring
    · simp only [linTo, if_neg (not_le.mpr h)]
      rw [List.chain'_map, List.chain'_range_succ]
      intro k _
      push_cast
      ring

/-! ## Claim theorems: model mutators (C9, C10) -/

/-- C9: calling `update` with both an explicit size and `rescale=True`
raises, and the geometry is left entirely unchanged (the conflict is
detected before any mutation). -/
theorem C9_update_mutual_exclusion (g : Geom) (micro : Option Micro)
    (size : List ℚ) (origin : Option (List ℚ)) :
    updateRun g micro (some size) origin true
      = (g, some "Either set size explicitly or rescale automatically") := by
  simp [updateRun]

/-- C10: each of `set_size`, `set_origin`, `set_microstructure`,
`set_homogenization` is a no-op on a `None` argument: no error, every
attribute unchanged. -/
theorem C10_none_setters_noop (g : Geom) :
    set_size g none = .ok g ∧ set_origin g none = .ok g ∧
    set_microstructure g none = .ok g ∧ set_homogenization g none = .ok g :=
  ⟨rfl, rfl, rfl, rfl⟩

/-! ## Claim theorems: column-major layout (C2) -/

/-- The column-major index translation: decomposing `i` by the fastest
axis `a`, then `b`, reassembles to `i`. -/
theorem colMajorIndex (a b : Nat) (i : Nat) :
    i % a + a * ((i / a) % b + b * (i / (a * b))) = i := by
  have h2 : i / (a * b) = i / a / b := (Nat.div_div_eq_div_mul i a b).symm
  calc i % a + a * ((i / a) % b + b * (i / (a * b)))
      = i % a + a * ((i / a) % b + b * (i / a / b)) := by rw [h2]
    _ = i % a + a * (i / a) := by rw [Nat.mod_add_div (i / a) b]
    _ = i := Nat.mod_add_div i a

/-- Reading a list back entry by entry reproduces it. -/
theorem map_getD_range (v : List ℚ) :
    (List.range v.length).map (fun i => v.getD i 0) = v := by
  induction v with
  | nil => rfl
  | cons a t ih =>
    rw [List.length_cons, List.range_succ_eq_map, List.map_cons, List.map_map]
    refine congrArg (List.cons a) ?_
    have hf : (fun i => (a :: t).getD i 0) ∘ Nat.succ = fun i => t.getD i 0 := by
      funext i
      simp
    rw [hf, ih]

/-- C2: for a grid `(a,b,c)` of positive extents and a flat buffer of
length `a*b*c`, the order-`F` reshape places flat element `i` at position
`(i % a, (i/a) % b, i/(a*b))`, and the column-major flatten of that reshape
is the identity on the buffer. -/
theorem C2_reshape_flatten (a b c : Nat) (v : List ℚ)
    (ha : 1 ≤ a) (hb : 1 ≤ b) (hc : 1 ≤ c) (hv : v.length = a * b * c) :
    (∀ i, i < a * b * c →
       reshapeF a b v (i % a) ((i / a) % b) (i / (a * b)) = v.getD i 0) ∧
    flattenF a b c (reshapeF a b v) = v := by
  constructor
  · intro i _
    rw [reshapeF, colMajorIndex]
  · rw [flattenF]
    have hfun : (fun i => reshapeF a b v (i % a) ((i / a) % b) (i / (a * b)))
        = fun i => v.getD i 0 := by
      funext i
      rw [reshapeF, colMajorIndex]
    rw [hfun, ← hv, map_getD_range]

/-- C2 witness: the reshape-then-flatten identity evaluated on a concrete
2 by 2 by 2 buffer. -/
theorem C2_reshape_flatten_witness :
    reshapeF 2 2 [10, 11, 12, 13, 14, 15, 16, 17] (5 % 2) ((5 / 2) % 2) (5 / 4)
        = (15 : ℚ) ∧
    flattenF 2 2 2 (reshapeF 2 2 [10, 11, 12, 13, 14, 15, 16, 17])
        = [10, 11, 12, 13, 14, 15, 16, 17] := by
  have h := C2_reshape_flatten 2 2 2 [10, 11, 12, 13, 14, 15, 16, 17]
    (by decide) (by decide) (by decide) (by decide)
  exact ⟨(h.1 5 (by decide)).trans (by decide), h.2⟩

/-! ## Claim theorems: load-time validation (C5, C6) -/

/-- C5: whenever the number of body scalars differs from the declared cell
count, construction fails with the dimension-mismatch error before any
geometry is produced — and the concrete `grid a 2 b 2 c 1` file with 3 body
scalars is rejected by `decode`. -/
theorem C5_count_mismatch :
    (∀ (gr : List Int) (hd : HeadInfo) (vals : List ℚ),
       (vals.length : Int) ≠ gr.prod →
       mkGeomChecked gr hd vals = .error "Invalid file: wrong number of entries") ∧
    decode mismatchFile = .error "Invalid file: wrong number of entries" := by
  constructor
  · intro gr hd vals h
    rw [mkGeomChecked, if_pos h]
  · decide

/-- C5 witness: the general mismatch theorem applied at grid `[2,2,1]` with
a 3-element body. -/
theorem C5_count_mismatch_witness :
    mkGeomChecked [2, 2, 1] emptyHead [1, 2, 3]
      = .error "Invalid file: wrong number of entries" :=
  C5_count_mismatch.1 [2, 2, 1] emptyHead [1, 2, 3] (by decide)

/-- C6 counterexample: the claim says a first line `6 HEAD` (or `6 Header`)
is accepted, but the keyword test `keyword.startswith('head')` is
case-sensitive, so both files are rejected outright. -/
theorem C6_counterexample :
    decode upperHeadFile = .error "header length information missing or invalid" ∧
    decode capHeaderFile = .error "header length information missing or invalid" := by
  constructor <;> decide

/-- C6 (amended): decoding fails with the format error unless the first
line carries an integer header count of at least 3 followed by a token that
starts with the lower-case literal `head` — the check is case-sensitive, so
`6 head` and `6 header` are accepted while `6 HEAD` and `6 Header` are not;
any count below 3 is rejected.  A marker failure aborts the whole decode
with that error. -/
theorem C6_marker_check (hl : Int) (kw : String) (rest : List Tok)
    (lines : List Line) :
    (parseMarker ((.int hl :: .str kw :: rest) :: lines)
       = if strStartsWith kw "head" = true ∧ 3 ≤ hl then .ok (hl.toNat, lines)
         else .error "header length information missing or invalid") ∧
    (∀ (f : GFile) (e : String), parseMarker f = .error e → decode f = .error e) := by
  constructor
  · show (if ¬ keywordOk (.str kw) = true ∨ hl < 3 then _ else _) = _
    by_cases h1 : strStartsWith kw "head" = true
    · by_cases h2 : hl < 3
      · simp [keywordOk, h1, h2, show ¬ (3 : Int) ≤ hl from by omega]
      · simp [keywordOk, h1, h2, show (3 : Int) ≤ hl from by omega]
    · simp [keywordOk, h1]
  · intro f e h
    rw [decode, h]

/-- C6 witness: the marker characterization evaluated at the accepted
first line `6 header` and propagated through `decode` on a failing file. -/
theorem C6_marker_check_witness :
    parseMarker [[.int 6, .str "header"]] = .ok (6, []) ∧
    decode [[.str "oops"]] = .error "header length information missing or invalid" := by
  constructor
  · rw [(C6_marker_check 6 "header" [] []).1, if_pos ⟨by decide, by omega⟩]
    decide
  · exact (C6_marker_check 0 "" [] []).2 [[.str "oops"]] _ (by decide)

/-! ## Claim theorems: crop transform (C7, C8) -/

/-- C7: cropping a `(4,4,4)` source of size `(1,1,1)` with offset `(1,0,0)`
and resolution `(2,4,4)` rewrites the dimension line to `(0.5, 1, 1)`
(per axis `size/grid*resolution`) and emits `4*4` rows of `2` values, the
source cells with a-index `1` and `2`, whatever the source field holds. -/
theorem C7_crop_scenario (m : Nat → Nat → Nat → Int) :
    cropDimension [1, 1, 1] [4, 4, 4] [2, 4, 4] = [1/2, 1, 1] ∧
    cropBody (4, 4, 4) m (1, 0, 0) (2, 4, 4) = .ok
      [ [m 1 0 0, m 2 0 0], [m 1 1 0, m 2 1 0],
        [m 1 2 0, m 2 2 0], [m 1 3 0, m 2 3 0],
        [m 1 0 1, m 2 0 1], [m 1 1 1, m 2 1 1],
        [m 1 2 1, m 2 2 1], [m 1 3 1, m 2 3 1],
        [m 1 0 2, m 2 0 2], [m 1 1 2, m 2 1 2],
        [m 1 2 2, m 2 2 2], [m 1 3 2, m 2 3 2],
        [m 1 0 3, m 2 0 3], [m 1 1 3, m 2 1 3],
        [m 1 2 3, m 2 2 3], [m 1 3 3, m 2 3 3] ] := by
  constructor
  · norm_num [cropDimension]
  · rfl

/-- The inner crop loop errors as soon as some visited `y` is out of range,
for any `z`. -/
theorem cropRowsY_err (g0 g1 g2 : Nat) (m : Nat → Nat → Nat → Int)
    (off0 res0 z : Nat) :
    ∀ n y, (∃ k, k < n ∧ g1 ≤ y + k) →
      cropRowsY g0 g1 g2 m off0 res0 z y n = .error "IndexError" := by
  intro n
  induction n with
  | zero => intro y h; omega
  | succ p ih =>
    intro y h
    by_cases hy : g1 ≤ y ∨ g2 ≤ z
    · rw [cropRowsY, if_pos hy]
    · obtain ⟨k, hk, hk2⟩ := h
      rw [cropRowsY, if_neg hy, ih (y + 1) ⟨k - 1, by omega, by omega⟩]

/-- The inner crop loop succeeds when every visited `y` and the fixed `z`
are in range, producing one clipped row per `y`. -/
theorem cropRowsY_ok (g0 g1 g2 : Nat) (m : Nat → Nat → Nat → Int)
    (off0 res0 z : Nat) (hz : z < g2) :
    ∀ n y, (∀ k, k < n → y + k < g1) →
      cropRowsY g0 g1 g2 m off0 res0 z y n
        = .ok ((List.range n).map
            (fun k => rowSlice g0 m off0 (off0 + res0) (y + k) z)) := by
  intro n
  induction n with
  | zero => intro y _; rfl
  | succ p ih =>
    intro y h
    have hy : ¬ (g1 ≤ y ∨ g2 ≤ z) := by
      have := h 0 (by omega)
      omega
    rw [cropRowsY, if_neg hy, ih (y + 1) (fun k hk => by have := h (k + 1) (by omega); omega)]
    rw [List.range_succ_eq_map, List.map_cons, List.map_map]
    refine congrArg Except.ok (congrArg₂ List.cons (by rw [Nat.add_zero]) ?_)
    refine List.map_congr_left (fun k _ => ?_)
    show rowSlice g0 m off0 (off0 + res0) (y + 1 + k) z = _
    rw [show y + 1 + k = y + (k + 1) from by omega]
    rfl

/-- The outer crop loop errors whenever the inner loop runs (positive `y`
count) and some visited `z` is out of range. -/
theorem cropRowsZ_err_z (g0 g1 g2 : Nat) (m : Nat → Nat → Nat → Int)
    (off0 res0 off1 res1 : Nat) (hr1 : 1 ≤ res1)
    (hb : ∀ k, k < res1 → off1 + k < g1) :
    ∀ n z, (∃ k, k < n ∧ g2 ≤ z + k) →
      cropRowsZ g0 g1 g2 m off0 res0 off1 res1 z n = .error "IndexError" := by
  intro n
  induction n with
  | zero => intro z h; omega
  | succ p ih =>
    intro z h
    by_cases hz : g2 ≤ z
    · obtain ⟨r, hr⟩ : ∃ r, res1 = r + 1 := ⟨res1 - 1, by omega⟩
      rw [cropRowsZ, hr, cropRowsY, if_pos (Or.inr hz)]
    · rw [cropRowsZ,
        cropRowsY_ok g0 g1 g2 m off0 res0 z (by omega) res1 off1 hb,
        ih (z + 1) (by obtain ⟨k, hk⟩ := h; exact ⟨k - 1, by omega, by omega⟩)]

/-- The outer crop loop succeeds when the whole `(y, z)` window is in
range, producing `res1 * n` rows, each the clipped axis-0 slice. -/
theorem cropRowsZ_ok (g0 g1 g2 : Nat) (m : Nat → Nat → Nat → Int)
    (off0 res0 off1 res1 : Nat)
    (hb : ∀ k, k < res1 → off1 + k < g1) :
    ∀ n z, (∀ k, k < n → z + k < g2) →
      ∃ rows, cropRowsZ g0 g1 g2 m off0 res0 off1 res1 z n = .ok rows ∧
        rows.length = res1 * n ∧
        ∀ r ∈ rows, r.length = min (off0 + res0) g0 - min off0 g0 := by
  intro n
  induction n with
  | zero =>
    intro z _
    exact ⟨[], rfl, by simp, by intro r hr; cases hr⟩
  | succ p ih =>
    intro z h
    obtain ⟨rest, hrest, hlen, hmem⟩ :=
      ih (z + 1) (fun k hk => by have := h (k + 1) (by omega); omega)
    refine ⟨(List.range res1).map
        (fun k => rowSlice g0 m off0 (off0 + res0) (off1 + k) z) ++ rest,
      ?_, ?_, ?_⟩
    · rw [cropRowsZ,
        cropRowsY_ok g0 g1 g2 m off0 res0 z (by have := h 0 (by omega); omega) res1 off1 hb,
        hrest]
    · rw [List.length_append, List.length_map, List.length_range, hlen]
      ring
    · intro r hr
      rcases List.mem_append.mp hr with hr | hr
      · obtain ⟨k, _, hk⟩ := List.mem_map.mp hr
        rw [← hk, rowSlice, List.length_map, List.length_range]
      · exact hmem r hr

/-- C8 counterexample: a crop of the `(4,4,4)` source with offset `(3,0,0)`
and resolution `(2,4,4)` exceeds the source bounds on axis a, yet it is
not rejected: the output is produced silently with one value per row where
resolution prescribes two. -/
theorem C8_counterexample :
    cropBody (4, 4, 4) (fun x y z => (x : Int) + 4 * y + 16 * z) (3, 0, 0) (2, 4, 4)
      = .ok [[3], [7], [11], [15], [19], [23], [27], [31],
             [35], [39], [43], [47], [51], [55], [59], [63]] ∧
    ([[3], [7], [11], [15], [19], [23], [27], [31],
      [35], [39], [43], [47], [51], [55], [59], [63]] : List (List Int)).all
        (fun r => r.length = 1) = true := by
  constructor
  · decide
  · decide

/-- C8 (amended, for non-negative offsets and positive requested b/c
resolution): an index window exceeding the source grid on axis b or axis c
makes the crop fail with `IndexError`; but a window exceeding the bounds
only on axis a is NOT rejected — the axis-0 slice is clipped, every output
row holding `min(off0+res0, g0) - min(off0, g0)` values (fewer than `res0`
when the window sticks out). -/
theorem C8_bounds (g0 g1 g2 : Nat) (m : Nat → Nat → Nat → Int)
    (off0 res0 off1 res1 off2 res2 : Nat)
    (h1 : 1 ≤ res1) (h2 : 1 ≤ res2) :
    ((g1 < off1 + res1 ∨ g2 < off2 + res2) →
       cropBody (g0, g1, g2) m (off0, off1, off2) (res0, res1, res2)
         = .error "IndexError") ∧
    (off1 + res1 ≤ g1 → off2 + res2 ≤ g2 →
       ∃ rows,
         cropBody (g0, g1, g2) m (off0, off1, off2) (res0, res1, res2)
           = .ok rows ∧
         rows.length = res1 * res2 ∧
         ∀ r ∈ rows, r.length = min (off0 + res0) g0 - min off0 g0) := by
  constructor
  · intro hover
    rcases hover with hover | hover
    · show cropRowsZ _ _ _ _ _ _ _ _ _ _ = _
      obtain ⟨r, hr⟩ : ∃ r, res2 = r + 1 := ⟨res2 - 1, by omega⟩
      rw [hr, cropRowsZ]
      rw [cropRowsY_err g0 g1 g2 m off0 res0 off2 res1 off1
        ⟨res1 - 1, by omega, by omega⟩]
    · by_cases hbin : ∀ k, k < res1 → off1 + k < g1
      · exact cropRowsZ_err_z g0 g1 g2 m off0 res0 off1 res1 h1 hbin res2 off2
          ⟨res2 - 1, by omega, by omega⟩
      · push_neg at hbin
        obtain ⟨k, hk, hk2⟩ := hbin
        show cropRowsZ _ _ _ _ _ _ _ _ _ _ = _
        obtain ⟨r, hr⟩ : ∃ r, res2 = r + 1 := ⟨res2 - 1, by omega⟩
        rw [hr, cropRowsZ]
        rw [cropRowsY_err g0 g1 g2 m off0 res0 off2 res1 off1 ⟨k, hk, hk2⟩]
  · intro hbin hcin
    exact cropRowsZ_ok g0 g1 g2 m off0 res0 off1 res1
      (fun k hk => by omega) res2 off2 (fun k hk => by omega)

/-- C8 witness: the rejection branch at a concrete out-of-bounds request on
axis b, and the clipping branch at a concrete axis-a overhang. -/
theorem C8_bounds_witness :
    cropBody (4, 4, 4) (fun x y z => (x : Int) + 4 * y + 16 * z) (0, 3, 0) (4, 2, 4)
      = .error "IndexError" ∧
    ∃ rows,
      cropBody (4, 4, 4) (fun x y z => (x : Int) + 4 * y + 16 * z) (3, 0, 0) (2, 4, 4)
        = .ok rows ∧ rows.length = 4 * 4 ∧
      ∀ r ∈ rows, r.length = min (3 + 2) 4 - min 3 4 := by
  constructor
  · exact (C8_bounds 4 4 4 _ 0 4 3 2 0 4 (by omega) (by omega)).1
      (Or.inl (by omega))
  · exact (C8_bounds 4 4 4 _ 3 2 0 4 0 4 (by omega) (by omega)).2
      (by omega) (by omega)

/-! ## Round-trip infrastructure (C1) -/

theorem numTok_ne_str (q : ℚ) (s : String) : numTok q ≠ .str s := by
  unfold numTok
  split <;> simp

theorem lowerTok_numTok (q : ℚ) : lowerTok (numTok q) = numTok q := by
  unfold numTok
  split <;> rfl

theorem parseFloatTok_numTok (q : ℚ) : parseFloatTok (numTok q) = some q := by
  unfold numTok
  split
  · rename_i h
    show some ((q.num : ℚ)) = some q
    rw [(Rat.den_eq_one_iff q).mp h]
  · rfl

theorem mapM_parseFloatTok_numTok (qs : List ℚ) :
    (qs.map numTok).mapM parseFloatTok = some qs := by
  induction qs with
  | nil => rfl
  | cons q t ih =>
    rw [List.map_cons, List.mapM_cons, parseFloatTok_numTok, ih]
    rfl

theorem getD_drop (l : List ℚ) (n m : Nat) :
    (l.drop n).getD m 0 = l.getD (n + m) 0 := by
  induction l generalizing n with
  | nil => simp
  | cons a t ih =>
    cases n with
    | zero => simp
    | succ k =>
      rw [List.drop_succ_cons, ih k]
      rw [show k + 1 + m = (k + m) + 1 from by omega, List.getD_cons_succ]

theorem map_getD_range_take (v : List ℚ) :
    ∀ a, a ≤ v.length → (List.range a).map (fun p => v.getD p 0) = v.take a := by
  induction v with
  | nil =>
    intro a ha
    rw [Nat.le_zero.mp ha]
    rfl
  | cons x t ih =>
    intro a ha
    cases a with
    | zero => rfl
    | succ b =>
      rw [List.range_succ_eq_map, List.map_cons, List.map_map, List.take_succ_cons]
      refine congrArg₂ List.cons rfl ?_
      have hf : ((fun p => (x :: t).getD p 0) ∘ Nat.succ) = fun p => t.getD p 0 := by
        funext p
        simp
      rw [hf]
      exact ih b (by simpa using ha)

/-- A body line of purely numeric tokens is parsed back to its values: no
compact form can trigger, because the middle token of a numeric 3-token
line is never a word. -/
theorem expandLine_numRow (qs : List ℚ) :
    expandLine (qs.map numTok) = .ok qs := by
  have hplain : ∀ l : List ℚ, plainFloats (l.map numTok) = Except.ok l := by
    intro l
    rw [plainFloats, mapM_parseFloatTok_numTok]
  match qs with
  | [] => exact hplain []
  | [q0] => exact hplain [q0]
  | [q0, q1] =>
    rcases hq : numTok q1 with s | n | x
    · exact absurd hq (numTok_ne_str q1 s)
    · rw [show (List.map numTok [q0, q1] : Line) = [numTok q0, .int n] from by rw [← hq]; rfl]
      show plainFloats [numTok q0, .int n] = _
      rw [← hq]
      exact hplain [q0, q1]
    · rw [show (List.map numTok [q0, q1] : Line) = [numTok q0, .float x] from by rw [← hq]; rfl]
      show plainFloats [numTok q0, .float x] = _
      rw [← hq]
      exact hplain [q0, q1]
  | [q0, q1, q2] =>
    rcases hq : numTok q1 with s | n | x
    · exact absurd hq (numTok_ne_str q1 s)
    · rw [show (List.map numTok [q0, q1, q2] : Line)
          = [numTok q0, .int n, numTok q2] from by rw [← hq]; rfl]
      show plainFloats [numTok q0, .int n, numTok q2] = _
      rw [← hq]
      exact hplain [q0, q1, q2]
    · rw [show (List.map numTok [q0, q1, q2] : Line)
          = [numTok q0, .float x, numTok q2] from by rw [← hq]; rfl]
      show plainFloats [numTok q0, .float x, numTok q2] = _
      rw [← hq]
      exact hplain [q0, q1, q2]
  | q0 :: q1 :: q2 :: q3 :: t =>
    rcases hq : numTok q1 with s | n | x
    · exact absurd hq (numTok_ne_str q1 s)
    · rw [show (List.map numTok (q0 :: q1 :: q2 :: q3 :: t) : Line)
          = numTok q0 :: .int n :: numTok q2 :: numTok q3 :: t.map numTok from by
            rw [← hq]; rfl]
      show plainFloats (numTok q0 :: .int n :: numTok q2 :: numTok q3 :: t.map numTok) = _
      rw [← hq]
      exact hplain (q0 :: q1 :: q2 :: q3 :: t)
    · rw [show (List.map numTok (q0 :: q1 :: q2 :: q3 :: t) : Line)
          = numTok q0 :: .float x :: numTok q2 :: numTok q3 :: t.map numTok from by
            rw [← hq]; rfl]
      show plainFloats (numTok q0 :: .float x :: numTok q2 :: numTok q3 :: t.map numTok) = _
      rw [← hq]
      exact hplain (q0 :: q1 :: q2 :: q3 :: t)

/-- Expanding a whole block of numeric rows recovers the rows. -/
theorem mapM_expandLine_numRows (rs : List (List ℚ)) :
    (rs.map (fun r => r.map numTok)).mapM expandLine = .ok rs := by
  induction rs with
  | nil => rfl
  | cons r t ih =>
    rw [List.map_cons, List.mapM_cons, expandLine_numRow, ih]
    rfl

/-- Concatenating the rows of the written body recovers the flat buffer. -/
theorem flatten_bodyRows (a : Nat) :
    ∀ (n : Nat) (vals : List ℚ), vals.length = a * n →
      ((List.range n).map
        (fun q => (List.range a).map (fun p => vals.getD (p + a * q) 0))).flatten
        = vals := by
  intro n
  induction n with
  | zero =>
    intro vals h
    have hv : vals = [] := List.length_eq_zero.mp (by simpa using h)
    rw [hv]
    rfl
  | succ p ih =>
    intro vals h
    have h2 : vals.length = a * p + a := by rw [h, Nat.mul_succ]
    rw [List.range_succ_eq_map, List.map_cons, List.map_map, List.flatten_cons]
    have h0 : (List.range a).map (fun x => vals.getD (x + a * 0) 0)
        = vals.take a := by
      have : (fun x => vals.getD (x + a * 0) 0) = fun x => vals.getD x 0 := by
        funext x
        rw [Nat.mul_zero, Nat.add_zero]
      rw [this]
      exact map_getD_range_take vals a (by omega)
    have h1 : ((fun q => (List.range a).map (fun p => vals.getD (p + a * q) 0))
          ∘ Nat.succ)
        = fun q => (List.range a).map (fun p => (vals.drop a).getD (p + a * q) 0) := by
      funext q
      refine List.map_congr_left (fun p _ => ?_)
      show vals.getD (p + a * (q + 1)) 0 = (vals.drop a).getD (p + a * q) 0
      rw [getD_drop, show a + (p + a * q) = p + a * (q + 1) from by ring]
    rw [h0, h1, ih (vals.drop a) (by rw [List.length_drop]; omega)]
    exact List.take_append_drop a vals

theorem parseHeaderLine_grid (hd : HeadInfo) (ga gb gc : Int) :
    parseHeaderLine hd
        [.str "grid", .str "a", .int ga, .str "b", .int gb, .str "c", .int gc]
      = .ok { hd with grid := some [ga, gb, gc] } := rfl

theorem parseHeaderLine_size (hd : HeadInfo) (sx sy sz : ℚ) :
    parseHeaderLine hd
        [.str "size", .str "x", .float sx, .str "y", .float sy, .str "z", .float sz]
      = .ok { hd with size := some [sx, sy, sz] } := rfl

theorem parseHeaderLine_origin (hd : HeadInfo) (ox oy oz : ℚ) :
    parseHeaderLine hd
        [.str "origin", .str "x", .float ox, .str "y", .float oy, .str "z", .float oz]
      = .ok { hd with origin := some [ox, oy, oz] } := rfl

theorem parseHeaderLine_homog (hd : HeadInfo) (h : Int) :
    parseHeaderLine hd [.str "homogenization", .int h]
      = .ok { hd with homog := some h } := rfl

/-- A line whose key is none of the four field keywords is appended to the
comments, the other fields untouched. -/
theorem parseHeaderLine_comment (hd : HeadInfo) (l : Line) (h : commentLine l) :
    parseHeaderLine hd l = .ok { hd with comments := hd.comments ++ [l] } := by
  obtain ⟨h1, h2, h3, h4⟩ := h
  simp only [parseHeaderLine]
  rw [if_neg h1, if_neg h2, if_neg h3, if_neg h4]

/-- Any line the header loop stores as a comment really is a comment line. -/
theorem parseHeaderLine_sub (hd hd2 : HeadInfo) (l : Line)
    (h : parseHeaderLine hd l = .ok hd2) :
    ∀ x ∈ hd2.comments, x ∈ hd.comments ∨ (x = l ∧ commentLine l) := by
  intro x hx
  simp only [parseHeaderLine] at h
  split_ifs at h with h1 h2 h3 h4
  · split at h
    · injection h with h
      subst h
      exact Or.inl hx
    · exact Except.noConfusion h
  · split at h
    · injection h with h
      subst h
      exact Or.inl hx
    · exact Except.noConfusion h
  · split at h
    · injection h with h
      subst h
      exact Or.inl hx
    · exact Except.noConfusion h
  · split at h
    · injection h with h
      subst h
      exact Or.inl hx
    · exact Except.noConfusion h
  · injection h with h
    subst h
    rcases List.mem_append.mp hx with hx | hx
    · exact Or.inl hx
    · exact Or.inr ⟨List.mem_singleton.mp hx, h1, h2, h3, h4⟩

/-- Every comment collected by the header loop is a comment line (or was
present initially). -/
theorem parseHeaderLoop_comments (ls : List Line) :
    ∀ hd0 hd, parseHeaderLoop hd0 ls = .ok hd →
      ∀ x ∈ hd.comments, x ∈ hd0.comments ∨ commentLine x := by
  induction ls with
  | nil =>
    intro hd0 hd h x hx
    injection h with h
    subst h
    exact Or.inl hx
  | cons l rest ih =>
    intro hd0 hd h x hx
    rw [parseHeaderLoop] at h
    split at h
    · rename_i hd1 hstep
      rcases ih hd1 hd h x hx with hx1 | hx1
      · rcases parseHeaderLine_sub hd0 hd1 l hstep x hx1 with h2 | ⟨he, hc⟩
        · exact Or.inl h2
        · exact Or.inr (he ▸ hc)
      · exact Or.inr hx1
    · exact Except.noConfusion h

/-- Running the header loop over comment lines only appends them. -/
theorem parseHeaderLoop_commentsOnly (ls : List Line) :
    ∀ hd, (∀ l ∈ ls, commentLine l) →
      parseHeaderLoop hd ls = .ok { hd with comments := hd.comments ++ ls } := by
  induction ls with
  | nil =>
    intro hd _
    show Except.ok hd = _
    rw [List.append_nil]
  | cons l rest ih =>
    intro hd h
    rw [parseHeaderLoop, parseHeaderLine_comment hd l (h l (by simp))]
    show parseHeaderLoop { hd with comments := hd.comments ++ [l] } rest = _
    rw [ih _ (fun x hx => h x (by simp [hx]))]
    simp

/-- Splitting the header loop over an append. -/
theorem parseHeaderLoop_append (xs ys : List Line) :
    ∀ hd, parseHeaderLoop hd (xs ++ ys)
      = match parseHeaderLoop hd xs with
        | .ok hd1 => parseHeaderLoop hd1 ys
        | .error e => .error e := by
  induction xs with
  | nil =>
    intro hd
    rfl
  | cons l rest ih =>
    intro hd
    rw [List.cons_append, parseHeaderLoop, parseHeaderLoop]
    cases parseHeaderLine hd l with
    | ok hd1 => exact ih hd1
    | error e => rfl

/-- Inversion of the checked construction: a successful `mkGeomChecked`
pins every validity fact the setters enforce and the exact shape of the
resulting geometry. -/
theorem mkGeomChecked_ok (gr : List Int) (hd : HeadInfo) (vals : List ℚ)
    (g : Geom) (h : mkGeomChecked gr hd vals = .ok g) :
    (vals.length : Int) = gr.prod ∧
    gr.any (fun x => x < 0) = false ∧
    ∃ size origin homog,
      hd.size = some size ∧ hd.origin = some origin ∧ hd.homog = some homog ∧
      size.length = 3 ∧ size.any (fun q => q ≤ 0) = false ∧
      origin.length = 3 ∧ gr.length = 3 ∧ ¬ homog < 1 ∧
      g = ⟨⟨gr, vals, vals.all isIntegral⟩, size, origin, homog, hd.comments⟩ := by
  simp only [mkGeomChecked] at h
  split at h
  · exact Except.noConfusion h
  · rename_i h1
    split at h
    · exact Except.noConfusion h
    · rename_i h2
      split at h
      · rename_i size origin homog hsize horigin hhomog
        split_ifs at h with c1 c2 c3 c4
        injection h with h
        push_neg at c1
        refine ⟨by omega, by simpa using h2, size, origin, homog,
          hsize, horigin, hhomog, c1.1, ?_, by omega, by omega, c4, h.symm⟩
        cases hq : size.any (fun q => q ≤ 0)
        · rfl
        · exact absurd hq c1.2
      · exact Except.noConfusion h

/-- Inversion of the encoder: a successful `to_file` means the shape is a
triple and the output is the header followed by the body rows. -/
theorem to_file_ok (g : Geom) (f2 : GFile) (h : to_file g = .ok f2) :
    ∃ ga gb gc, g.microstructure.shape = [ga, gb, gc] ∧
      f2 = get_header g ++
        bodyLines g.microstructure.isInt ga.toNat (gb.toNat * gc.toNat)
          g.microstructure.vals := by
  simp only [to_file] at h
  split at h
  · rename_i ga gb gc hshape
    refine ⟨ga, gb, gc, hshape, ?_⟩
    split_ifs at h with hint
    · rcases hmax : g.microstructure.vals.maximum with _ | m
      · rw [hmax] at h
        exact Except.noConfusion h
      · rw [hmax] at h
        have h2 : (if m < 1 then (Except.error "math domain error" : Except String GFile)
            else .ok (get_header g ++
              bodyLines g.microstructure.isInt ga.toNat (gb.toNat * gc.toNat)
                g.microstructure.vals))
            = Except.ok f2 := h
        by_cases hm : m < 1
        · rw [if_pos hm] at h2
          exact Except.noConfusion h2
        · rw [if_neg hm] at h2
          injection h2 with h2
          exact h2.symm
    · injection h with h
      exact h.symm
  · exact Except.noConfusion h

/-- Inversion of `decode` into its phases. -/
theorem decode_ok (f : GFile) (g : Geom) (h : decode f = .ok g) :
    ∃ hl content hd gr vals,
      parseMarker f = .ok (hl, content) ∧
      parseHeaderLoop emptyHead (content.take hl) = .ok hd ∧
      hd.grid = some gr ∧
      parseBody (content.drop hl) = .ok vals ∧
      mkGeomChecked gr hd vals = .ok g := by
  rw [decode] at h
  split at h
  · exact Except.noConfusion h
  · rename_i hl content hmark
    split at h
    · exact Except.noConfusion h
    · rename_i hd hloop
      split at h
      · exact Except.noConfusion h
      · rename_i gr hgrid
        split_ifs at h with hneg
        split at h
        · exact Except.noConfusion h
        · rename_i vals hbody
          exact ⟨hl, content, hd, gr, vals, hmark, hloop, hgrid, hbody, h⟩

/-- On an integer-typed array the writer prints each value exactly. -/
theorem fmtTok_true_integral (q : ℚ) (h : q.den = 1) :
    fmtTok true q = numTok q := by
  rw [fmtTok, if_pos rfl, numTok, if_pos h]

/-- Every position read from an all-integral buffer (including the
out-of-range default 0) holds an integral value. -/
theorem getD_integral (vals : List ℚ) (hall : vals.all isIntegral = true)
    (i : Nat) : (vals.getD i 0).den = 1 := by
  by_cases hi : i < vals.length
  · have hmem : vals.getD i 0 ∈ vals := by
      rw [List.getD_eq_getElem?_getD, List.getElem?_eq_getElem hi]
      exact List.getElem_mem hi
    exact of_decide_eq_true (List.all_eq_true.mp hall _ hmem)
  · rw [List.getD_eq_default vals 0 (le_of_not_lt hi)]
    rfl

/-- The body written by the encoder for an integer-typed microstructure
parses back to the flat buffer. -/
theorem parseBody_bodyLines_int (a n : Nat) (vals : List ℚ)
    (h : vals.length = a * n) (hall : vals.all isIntegral = true) :
    parseBody (bodyLines true a n vals) = .ok vals := by
  have hb : bodyLines true a n vals
      = ((List.range n).map
          (fun q => (List.range a).map (fun p => vals.getD (p + a * q) 0))).map
            (fun r => r.map numTok) := by
    rw [bodyLines, List.map_map]
    refine List.map_congr_left (fun q _ => ?_)
    show _ = ((List.range a).map (fun p => vals.getD (p + a * q) 0)).map numTok
    rw [List.map_map]
    refine List.map_congr_left (fun p _ => ?_)
    exact fmtTok_true_integral _ (getD_integral vals hall _)
  rw [parseBody, hb, mapM_expandLine_numRows]
  exact congrArg Except.ok (flatten_bodyRows a n vals h)

/-- The marker line written by the encoder is accepted, returning the
declared count. -/
theorem parseMarker_header (c : Nat) (rest : List Line) :
    parseMarker ([.int ((c : Int) + 4), .str "header"] :: rest)
      = .ok (c + 4, rest) := by
  have h1 : parseMarker ([.int ((c : Int) + 4), .str "header"] :: rest)
      = if ¬ keywordOk (.str "header") = true ∨ ((c : Int) + 4) < 3 then
          Except.error "header length information missing or invalid"
        else Except.ok (((c : Int) + 4).toNat, rest) := rfl
  rw [h1, if_neg (by push_neg; exact ⟨by decide, by omega⟩)]
  have h2 : ((c : Int) + 4).toNat = c + 4 := by omega
  rw [h2]

/-- Composition of the decode phases. -/
theorem decode_steps (f : GFile) (hl : Nat) (content : List Line)
    (hd : HeadInfo) (gr : List Int) (vals : List ℚ)
    (h1 : parseMarker f = .ok (hl, content))
    (h2 : parseHeaderLoop emptyHead (content.take hl) = .ok hd)
    (h3 : hd.grid = some gr)
    (h4 : ¬ gr.prod < 0)
    (h5 : parseBody (content.drop hl) = .ok vals) :
    decode f = mkGeomChecked gr hd vals := by
  simp only [decode, h1, h2, h3, h5, if_neg h4]

/-- Forward run of the checked construction under the validity facts. -/
theorem mkGeomChecked_build (gr : List Int) (hd : HeadInfo) (vals : List ℚ)
    (size origin : List ℚ) (homog : Int)
    (hsize : hd.size = some size) (horigin : hd.origin = some origin)
    (hhomog : hd.homog = some homog)
    (hcount : (vals.length : Int) = gr.prod)
    (hneg : gr.any (fun x => x < 0) = false)
    (hslen : size.length = 3) (hspos : size.any (fun q => q ≤ 0) = false)
    (holen : origin.length = 3) (hgrlen : gr.length = 3) (hhom : ¬ homog < 1) :
    mkGeomChecked gr hd vals
      = .ok ⟨⟨gr, vals, vals.all isIntegral⟩, size, origin, homog, hd.comments⟩ := by
  simp only [mkGeomChecked, hsize, horigin, hhomog]
  rw [if_neg (by omega : ¬ (vals.length : Int) ≠ gr.prod)]
  rw [if_neg (by simp [hneg] : ¬ gr.any (fun x => x < 0) = true)]
  rw [if_neg (by simp [hslen, hspos] : ¬ (size.length ≠ 3 ∨ size.any (fun q => q ≤ 0) = true))]
  rw [if_neg (by simp [holen] : ¬ origin.length ≠ 3)]
  rw [if_neg (by simp [hgrlen] : ¬ gr.length ≠ 3)]
  rw [if_neg hhom]

/-- C1 (amended): for every well-formed geometry file — one `decode`
accepts — whose decoded microstructure is integer-typed and whose encoding
succeeds, re-decoding the encoded output yields a geometry with exactly
the same grid, size, origin, homogenization, comments and microstructure
values.  The two carve-outs are forced by the counterexample: encoding an
integer-typed microstructure fails when it is empty or its maximum is
below 1 (the `log10` column width), and a float-typed body is written with
`'%g'`, whose 6-significant-digit rounding changes values. -/
theorem C1_roundtrip (f : GFile) (g : Geom) (f2 : GFile)
    (hdec : decode f = .ok g) (hint : g.microstructure.isInt = true)
    (henc : to_file g = .ok f2) :
    decode f2 = .ok g := by
  obtain ⟨hl, content, hd, gr, vals, hmark, hloop, hgrid, hbody, hmk⟩ :=
    decode_ok f g hdec
  obtain ⟨hcount, hneg, size, origin, homog, hsize, horigin, hhomog,
    hslen, hspos, holen, hgrlen, hhom, hg⟩ := mkGeomChecked_ok gr hd vals g hmk
  obtain ⟨ga, gb, gc, hshape, hf2⟩ := to_file_ok g f2 henc
  have hgr : gr = [ga, gb, gc] := by
    have h0 : g.microstructure.shape = gr := by rw [hg]
    rw [← h0, hshape]
  have hcom : ∀ x ∈ hd.comments, commentLine x := by
    intro x hx
    rcases parseHeaderLoop_comments _ emptyHead hd hloop x hx with h0 | h0
    · cases h0
    · exact h0
  obtain ⟨s0, s1, s2, hs3⟩ := List.length_eq_three.mp hslen
  obtain ⟨o0, o1, o2, ho3⟩ := List.length_eq_three.mp holen
  subst hgr hs3 ho3 hg hf2
  have hall : vals.all isIntegral = true := hint
  have hnn : 0 ≤ ga ∧ 0 ≤ gb ∧ 0 ≤ gc := by
    simp only [List.any_cons, List.any_nil, Bool.or_eq_false_iff,
      decide_eq_false_iff_not, not_lt] at hneg
    exact ⟨hneg.1, hneg.2.1, hneg.2.2.1⟩
  have hprod : ([ga, gb, gc] : List Int).prod = ga * (gb * gc) := by
    simp [List.prod_cons]
  have hval : vals.length = ga.toNat * (gb.toNat * gc.toNat) := by
    have h1 : ((ga.toNat * (gb.toNat * gc.toNat) : Nat) : Int) = ga * (gb * gc) := by
      push_cast
      rw [Int.toNat_of_nonneg hnn.1, Int.toNat_of_nonneg hnn.2.1,
        Int.toNat_of_nonneg hnn.2.2]
    rw [hprod] at hcount
    omega
  -- the encoded file, line by line
  have hhead : get_header ⟨⟨[ga, gb, gc], vals, vals.all isIntegral⟩,
        [s0, s1, s2], [o0, o1, o2], homog, hd.comments⟩
      = [.int ((hd.comments.length : Int) + 4), .str "header"] ::
        (hd.comments ++
          [ [.str "grid", .str "a", .int ga, .str "b", .int gb, .str "c", .int gc],
            [.str "size", .str "x", .float s0, .str "y", .float s1, .str "z", .float s2],
            [.str "origin", .str "x", .float o0, .str "y", .float o1, .str "z", .float o2],
            [.str "homogenization", .int homog] ]) := rfl
  show decode (get_header _ ++
      bodyLines (vals.all isIntegral) ga.toNat (gb.toNat * gc.toNat) vals) = _
  rw [hhead, List.cons_append]
  set gridL : Line :=
    [.str "grid", .str "a", .int ga, .str "b", .int gb, .str "c", .int gc] with hG
  set sizeL : Line :=
    [.str "size", .str "x", .float s0, .str "y", .float s1, .str "z", .float s2] with hS
  set originL : Line :=
    [.str "origin", .str "x", .float o0, .str "y", .float o1, .str "z", .float o2] with hO
  set homL : Line := [.str "homogenization", .int homog] with hH
  set bodyL : List Line :=
    bodyLines (vals.all isIntegral) ga.toNat (gb.toNat * gc.toNat) vals with hB
  set rest : List Line := (hd.comments ++ [gridL, sizeL, originL, homL]) ++ bodyL
    with hrest
  have e1 : parseMarker ([.int ((hd.comments.length : Int) + 4), .str "header"]
        :: rest) = .ok (hd.comments.length + 4, rest) :=
    parseMarker_header hd.comments.length rest
  have htake : rest.take (hd.comments.length + 4)
      = hd.comments ++ [gridL, sizeL, originL, homL] := by
    rw [hrest, List.append_assoc, List.take_append]
    rfl
  have hdrop : rest.drop (hd.comments.length + 4) = bodyL := by
    rw [hrest, List.append_assoc, List.drop_append]
    rfl
  have e2 : parseHeaderLoop emptyHead (rest.take (hd.comments.length + 4))
      = .ok ⟨some [ga, gb, gc], some [s0, s1, s2], some [o0, o1, o2],
          some homog, hd.comments⟩ := by
    rw [htake, parseHeaderLoop_append,
      parseHeaderLoop_commentsOnly hd.comments emptyHead hcom]
    show parseHeaderLoop ⟨none, none, none, none, [] ++ hd.comments⟩
        [gridL, sizeL, originL, homL] = _
    rw [List.nil_append, hG, hS, hO, hH]
    simp only [parseHeaderLoop, parseHeaderLine_grid, parseHeaderLine_size,
      parseHeaderLine_origin, parseHeaderLine_homog]
  have e5 : parseBody (rest.drop (hd.comments.length + 4)) = .ok vals := by
    rw [hdrop, hB, hall]
    exact parseBody_bodyLines_int ga.toNat (gb.toNat * gc.toNat) vals hval hall
  have h4 : ¬ ([ga, gb, gc] : List Int).prod < 0 := by
    rw [hprod]
    have := mul_nonneg hnn.2.1 hnn.2.2
    have := mul_nonneg hnn.1 this
    omega
  rw [decode_steps _ (hd.comments.length + 4) rest _ [ga, gb, gc] vals
    e1 e2 rfl h4 e5]
  exact mkGeomChecked_build [ga, gb, gc] _ vals [s0, s1, s2] [o0, o1, o2] homog
    rfl rfl rfl hcount hneg hslen hspos holen hgrlen hhom

theorem twoThirds_eq : twoThirds = 2 / 3 := by
  have h := Rat.num_div_den twoThirds
  rw [show twoThirds.num = 2 from rfl, show twoThirds.den = 3 from rfl] at h
  push_cast at h
  exact h.symm

theorem g6TwoThirds_eq : g6TwoThirds = 666667 / 1000000 := by
  have h := Rat.num_div_den g6TwoThirds
  rw [show g6TwoThirds.num = 666667 from rfl,
    show g6TwoThirds.den = 1000000 from rfl] at h
  push_cast at h
  exact h.symm

theorem log_ten_two : Nat.log 10 2 = 0 := by
  rw [Nat.log_eq_zero_iff]
  left
  norm_num

theorem log_ten_three : Nat.log 10 3 = 0 := by
  rw [Nat.log_eq_zero_iff]
  left
  norm_num

/-- 2/3 lies in the decade of exponent -1. -/
theorem exp10_twoThirds : exp10 twoThirds = -1 := by
  have hcond : |twoThirds|
      < (10 : ℚ) ^ (((Nat.log 10 twoThirds.num.natAbs : Nat) : Int)
          - ((Nat.log 10 twoThirds.den : Nat) : Int)) := by
    rw [show twoThirds.num.natAbs = 2 from rfl, show twoThirds.den = 3 from rfl,
      log_ten_two, log_ten_three, abs_of_pos (by decide : (0 : ℚ) < twoThirds),
      twoThirds_eq]
    norm_num
  simp only [exp10]
  rw [if_pos hcond, show twoThirds.num.natAbs = 2 from rfl,
    show twoThirds.den = 3 from rfl, log_ten_two, log_ten_three]
  norm_num

/-- Rounding 2/3 to 6 significant digits gives 666667 units of 10^-6. -/
theorem round_twoThirds : round (twoThirds / (10 : ℚ) ^ ((-1 : Int) - 5)) = 666667 := by
  have hdiv : twoThirds / (10 : ℚ) ^ ((-1 : Int) - 5) = 2000000 / 3 := by
    rw [twoThirds_eq]
    norm_num
  rw [hdiv, round_eq, show (2000000 : ℚ) / 3 + 1 / 2 = 4000003 / 6 from by norm_num,
    Int.floor_eq_iff]
  norm_num

/-- The `'%g'` model writes 2/3 as 0.666667. -/
theorem g6_twoThirds : g6 twoThirds = g6TwoThirds := by
  rw [g6, if_neg (by decide : ¬ twoThirds = 0), exp10_twoThirds, round_twoThirds,
    g6TwoThirds_eq]
  norm_num

/-- C1 counterexample: two well-formed files on which the round trip as
claimed fails.  First, a single cell holding the integer 0: the decode
succeeds but the encode raises instead of reproducing anything, because
the integer column-width computation takes `log10` of a non-positive
maximum.  Second, a single cell holding 2/3: decode and encode both
succeed, but the `'%g'` format writes the value to 6 significant digits,
so the re-decoded microstructure holds 0.666667, not 2/3. -/
theorem C1_counterexample :
    (∃ g, decode zeroValFile = .ok g ∧ to_file g = .error "math domain error") ∧
    (∃ g g2, decode floatValFile = .ok g ∧ to_file g = .ok floatValOut ∧
      decode floatValOut = .ok g2 ∧
      g.microstructure.vals = [twoThirds] ∧
      g2.microstructure.vals = [g6TwoThirds] ∧
      g6TwoThirds ≠ twoThirds) := by
  constructor
  · refine ⟨⟨⟨[1, 1, 1], [0], true⟩, [1, 1, 1], [0, 0, 0], 1, []⟩, ?_, ?_⟩
    · decide
    · decide
  · refine ⟨⟨⟨[1, 1, 1], [twoThirds], false⟩, [1, 1, 1], [0, 0, 0], 1, []⟩,
      ⟨⟨[1, 1, 1], [g6TwoThirds], false⟩, [1, 1, 1], [0, 0, 0], 1, []⟩,
      by decide, ?_, by decide, rfl, rfl, by decide⟩
    have hstep : to_file ⟨⟨[1, 1, 1], [twoThirds], false⟩,
          [1, 1, 1], [0, 0, 0], 1, []⟩
        = .ok [ [.int 4, .str "header"],
            [.str "grid", .str "a", .int 1, .str "b", .int 1, .str "c", .int 1],
            [.str "size", .str "x", .float 1, .str "y", .float 1, .str "z", .float 1],
            [.str "origin", .str "x", .float 0, .str "y", .float 0, .str "z", .float 0],
            [.str "homogenization", .int 1],
            [fmtTok false twoThirds] ] := rfl
    rw [hstep, show fmtTok false twoThirds = numTok (g6 twoThirds) from rfl,
      g6_twoThirds]
    decide

/-- C1 witness: the round-trip theorem applied to a concrete 2 by 2 by 1
file. -/
theorem C1_roundtrip_witness :
    decode roundTripFile = .ok roundTripGeom ∧
    to_file roundTripGeom = .ok roundTripOut ∧
    decode roundTripOut = .ok roundTripGeom := by
  have h1 : decode roundTripFile = .ok roundTripGeom := by decide
  have h2 : to_file roundTripGeom = .ok roundTripOut := by decide
  exact ⟨h1, h2, C1_roundtrip roundTripFile roundTripGeom roundTripOut h1 rfl h2⟩

end DamaskGeom
